import Mathlib

/-!
Verification development for the CbmSim core: the simulation state
container (`CBMState`, from src/src/cbm_state/cbmstate.cpp) and the trial
engine / spike statistics tracker (`Control`, from
src/src/Big_Sim/control.cpp).

Machine integers are modelled as `Nat` (per-trial spike tallies and
stream words never approach the 32/64-bit bounds in any execution the
claims quantify over), and the `float` firing-rate arithmetic is modelled
exactly over `ℚ` (the claims are about which formula is computed, and the
formulas involved are single divisions of integer-valued quantities).
Sub-state classes (`InNetConnectivityState` etc.) and the SFMT random
generator are not part of the excerpted sources; they are modelled from
the spec where noted, as positional word payloads and as a seeded draw
stream respectively.
-/

/-- The cell-type enum of control.h: indices into `spike_sums`,
`cell_spikes` and `firing_rates`. -/
inductive CellType where
  | MF
  | GR
  | GO
  | BC
  | SC
  | PC
  | Io
  | DCN
deriving DecidableEq

/-- One entry of `Control::spike_sums`: per-cell-type running totals and
per-cell counters, split by CS/non-CS phase. -/
structure SpikeSum where
  num_cells : Nat
  cs_spike_sum : Nat
  non_cs_spike_sum : Nat
  cs_spike_counter : List Nat
  non_cs_spike_counter : List Nat
deriving DecidableEq

/-- The vector of per-cell 0/1 spike flags actually read by the loops of
`Control::update_spike_sums`: entry `j < n` is `cell_spikes[i][j]`. -/
def flags_vec (n : Nat) (spikes : List Nat) : List Nat :=
  (List.range n).map (fun j => spikes.getD j 0)

/-- The CS branch of `Control::update_spike_sums`: add each cell's spike
flag to the CS sum and to that cell's CS counter. -/
def SpikeSum.add_cs (s : SpikeSum) (spikes : List Nat) : SpikeSum :=
  { s with
    cs_spike_sum := s.cs_spike_sum + (flags_vec s.num_cells spikes).sum,
    cs_spike_counter :=
      List.zipWith (· + ·) s.cs_spike_counter (flags_vec s.num_cells spikes) }

/-- The non-CS branch of `Control::update_spike_sums`: add each cell's
spike flag to the non-CS sum and to that cell's non-CS counter. -/
def SpikeSum.add_non_cs (s : SpikeSum) (spikes : List Nat) : SpikeSum :=
  { s with
    non_cs_spike_sum := s.non_cs_spike_sum + (flags_vec s.num_cells spikes).sum,
    non_cs_spike_counter :=
      List.zipWith (· + ·) s.non_cs_spike_counter (flags_vec s.num_cells spikes) }

/-- `Control::update_spike_sums(tts)`: during the CS window
`[csStart, csStart + csLength)` accumulate into the CS tallies; before
`csStart` accumulate into the non-CS tallies; otherwise touch nothing. -/
def update_spike_sums (csStart csLength tts : Nat)
    (cellSpikes : CellType → List Nat) (s : CellType → SpikeSum) :
    CellType → SpikeSum :=
  fun ct =>
    if csStart ≤ tts ∧ tts < csStart + csLength then
      (s ct).add_cs (cellSpikes ct)
    else if tts < csStart then
      (s ct).add_non_cs (cellSpikes ct)
    else s ct

/-- `Control::reset_spike_sums`: zero both sums and both per-cell counter
arrays (`memset` over `num_cells` entries); sizes are kept. -/
def reset_spike_sums (s : CellType → SpikeSum) : CellType → SpikeSum :=
  fun ct =>
    { num_cells := (s ct).num_cells,
      cs_spike_sum := 0,
      non_cs_spike_sum := 0,
      cs_spike_counter := List.replicate (s ct).num_cells 0,
      non_cs_spike_counter := List.replicate (s ct).num_cells 0 }

/-- `Control::initialize_spike_sums`: allocate zero-filled counters of
each type's population size and zero both sums. -/
def initialize_spike_sums (sizes : CellType → Nat) : CellType → SpikeSum :=
  fun ct =>
    { num_cells := sizes ct,
      cs_spike_sum := 0,
      non_cs_spike_sum := 0,
      cs_spike_counter := List.replicate (sizes ct) 0,
      non_cs_spike_counter := List.replicate (sizes ct) 0 }

/-- One event in the life of the spike-sum tracker: a per-timestep update
with the spike vectors exported at that timestep, or an end-of-trial
reset. -/
inductive SpikeOp where
  | update (tts : Nat) (cellSpikes : CellType → List Nat)
  | reset

/-- Apply one tracker event. -/
def SpikeOp.apply (csStart csLength : Nat) (s : CellType → SpikeSum) :
    SpikeOp → (CellType → SpikeSum)
  | SpikeOp.update tts cellSpikes => update_spike_sums csStart csLength tts cellSpikes s
  | SpikeOp.reset => reset_spike_sums s

/-- Run a sequence of tracker events from a starting state. -/
def run_spike_ops (csStart csLength : Nat) (s : CellType → SpikeSum)
    (ops : List SpikeOp) : CellType → SpikeSum :=
  ops.foldl (fun acc op => op.apply csStart csLength acc) s

/-- Well-formedness of the tracker state: every counter array has exactly
`num_cells` entries and each running sum equals the sum of its counter
array (the conservation invariant of the spec's data model). -/
def spike_wf (s : CellType → SpikeSum) : Prop :=
  ∀ ct, (s ct).cs_spike_counter.length = (s ct).num_cells ∧
        (s ct).non_cs_spike_counter.length = (s ct).num_cells ∧
        (s ct).cs_spike_sum = (s ct).cs_spike_counter.sum ∧
        (s ct).non_cs_spike_sum = (s ct).non_cs_spike_counter.sum

/-- One entry of `Control::firing_rates`; the four derived rates, modelled
exactly over `ℚ`. -/
structure FiringRate where
  non_cs_median_fr : ℚ
  cs_median_fr : ℚ
  non_cs_mean_fr : ℚ
  cs_mean_fr : ℚ
deriving DecidableEq

/-- `Control::calculate_firing_rates`: sorts each counter array in place
(the second component is the post-call, sorted `spike_sums`), then derives
medians from the two middle sorted entries and means from the sums.  The
CS denominators are the literals `4.0` and `2.0 * num_cells` of the
source; `csLength` is an (unused) member of the controller, passed here to
make the hard-coding explicit. -/
def calculate_firing_rates (csStart csLength : Nat) (s : CellType → SpikeSum) :
    (CellType → FiringRate) × (CellType → SpikeSum) :=
  let non_cs_time : ℚ := ((csStart : ℚ) - 1) / 1000
  (fun ct =>
    let n := (s ct).num_cells
    let ncsort := List.insertionSort (· ≤ ·) (s ct).non_cs_spike_counter
    let cssort := List.insertionSort (· ≤ ·) (s ct).cs_spike_counter
    { non_cs_median_fr :=
        (((ncsort.getD (n / 2 - 1) 0 : Nat) : ℚ) + ((ncsort.getD (n / 2) 0 : Nat) : ℚ))
          / (2 * non_cs_time),
      cs_median_fr :=
        (((cssort.getD (n / 2 - 1) 0 : Nat) : ℚ) + ((cssort.getD (n / 2) 0 : Nat) : ℚ)) / 4,
      non_cs_mean_fr := (((s ct).non_cs_spike_sum : Nat) : ℚ) / (non_cs_time * (n : ℚ)),
      cs_mean_fr := (((s ct).cs_spike_sum : Nat) : ℚ) / (2 * (n : ℚ)) },
   fun ct =>
    { s ct with
      cs_spike_counter := List.insertionSort (· ≤ ·) (s ct).cs_spike_counter,
      non_cs_spike_counter := List.insertionSort (· ≤ ·) (s ct).non_cs_spike_counter })

/-- The spike vectors `Control::update_spike_sums` exports from the input
network (`exportAPGR`, `exportAPGO`, `exportAPSC`). -/
structure InNetExports where
  apGR : List Nat
  apGO : List Nat
  apSC : List Nat
deriving DecidableEq

/-- The spike vectors `Control::update_spike_sums` exports from one
microzone (`exportAPBC`, `exportAPPC`, `exportAPIO`, `exportAPNC`). -/
structure MZoneExports where
  apBC : List Nat
  apPC : List Nat
  apIo : List Nat
  apNC : List Nat
deriving DecidableEq

/-- The `cell_spikes` assignments at the top of
`Control::update_spike_sums`: every microzone export is taken from
`getMZoneList()[0]`. -/
def gather_cell_spikes (mfAP : List Nat) (innet : InNetExports)
    (mzones : Nat → MZoneExports) : CellType → List Nat
  | CellType.MF => mfAP
  | CellType.GR => innet.apGR
  | CellType.GO => innet.apGO
  | CellType.BC => (mzones 0).apBC
  | CellType.SC => innet.apSC
  | CellType.PC => (mzones 0).apPC
  | CellType.Io => MZoneExports.apIo (mzones 0)
  | CellType.DCN => (mzones 0).apNC

/-- `Control::update_spike_sums` including its export phase: gather the
spike vectors from the kernel, then accumulate by phase. -/
def update_spike_sums_from_core (csStart csLength tts : Nat) (mfAP : List Nat)
    (innet : InNetExports) (mzones : Nat → MZoneExports)
    (s : CellType → SpikeSum) : CellType → SpikeSum :=
  update_spike_sums csStart csLength tts (gather_cell_spikes mfAP innet mzones) s

/-- The hierarchical simulation state of cbmstate.cpp.  The sub-states
(`InNetConnectivityState` etc.) are outside the excerpted sources;
modelled from the spec as the positional word payloads they serialize
("no length prefixes or type tags; the format is purely positional"). -/
structure CBMState where
  numZones : Nat
  innetConState : List Nat
  innetActState : List Nat
  mzoneConStates : List (List Nat)
  mzoneActStates : List (List Nat)
deriving DecidableEq

/-- Modelled from the spec: one sub-state `readState`, a fixed-size
positional read.  Mirrors an `fstream` read, which never signals
exhaustion: words past the end of the stream come back as garbage
(modelled as zeros), and the stream position simply saturates. -/
def readField (n : Nat) (stream : List Nat) : List Nat × List Nat :=
  (stream.take n ++ List.replicate (n - stream.length) 0, stream.drop n)

/-- The per-zone half of `CBMState::writeState`: for each zone in index
order, zone connectivity then zone activity. -/
def writeZones : List (List Nat) → List (List Nat) → List Nat
  | c :: cs, a :: rest => c ++ a ++ writeZones cs rest
  | _, _ => []

/-- The per-zone half of `CBMState::readState`: for each zone in index
order, read zone connectivity then zone activity. -/
def readZones (mcS maS : Nat) : Nat → List Nat → (List (List Nat) × List (List Nat)) × List Nat
  | 0, stream => (([], []), stream)
  | k + 1, stream =>
    let rc := readField mcS stream
    let ra := readField maS rc.2
    let rz := readZones mcS maS k ra.2
    ((rc.1 :: rz.1.1, ra.1 :: rz.1.2), rz.2)

/-- `CBMState::writeState`: input-network connectivity, input-network
activity, then for each zone in index order zone connectivity then zone
activity. -/
def CBMState.writeState (s : CBMState) : List Nat :=
  s.innetConState ++ s.innetActState ++ writeZones s.mzoneConStates s.mzoneActStates

/-- `CBMState::readState` and the restorative constructor
`CBMState(nZones, plast_type, sim_file_buf)`: read the fields in exactly
the order `writeState` writes them.  `icS iaS mcS maS` are the fixed
sub-state word counts, known out-of-band from the parameter blocks. -/
def CBMState.readState (icS iaS mcS maS nZones : Nat) (stream : List Nat) : CBMState :=
  let ric := readField icS stream
  let ria := readField iaS ric.2
  let rz := readZones mcS maS nZones ria.2
  { numZones := nZones,
    innetConState := ric.1,
    innetActState := ria.1,
    mzoneConStates := rz.1.1,
    mzoneActStates := rz.1.2 }

/-- Modelled from the spec: the distinct, catchable failure demanded of a
restore that runs past the logical end of the stream. -/
inductive StateReadError where
  | corruptState
deriving DecidableEq

/-- Modelled from the spec: a checked positional read that fails with
`corruptState` instead of reading garbage when the stream is exhausted. -/
def readFieldChecked (n : Nat) (stream : List Nat) :
    Except StateReadError (List Nat × List Nat) :=
  if n ≤ stream.length then Except.ok (stream.take n, stream.drop n)
  else Except.error StateReadError.corruptState

/-- Modelled from the spec: the checked per-zone reads. -/
def readZonesChecked (mcS maS : Nat) :
    Nat → List Nat → Except StateReadError ((List (List Nat) × List (List Nat)) × List Nat)
  | 0, stream => Except.ok (([], []), stream)
  | k + 1, stream => do
    let rc ← readFieldChecked mcS stream
    let ra ← readFieldChecked maS rc.2
    let rz ← readZonesChecked mcS maS k ra.2
    pure ((rc.1 :: rz.1.1, ra.1 :: rz.1.2), rz.2)

/-- Modelled from the spec: the checked restore, failing with a
`corruptState` condition if the stream is exhausted before all expected
fields (input network, then each per-zone pair) have been read. -/
def CBMState.readStateChecked (icS iaS mcS maS nZones : Nat) (stream : List Nat) :
    Except StateReadError CBMState := do
  let ric ← readFieldChecked icS stream
  let ria ← readFieldChecked iaS ric.2
  let rz ← readZonesChecked mcS maS nZones ria.2
  pure { numZones := nZones,
         innetConState := ric.1,
         innetActState := ria.1,
         mzoneConStates := rz.1.1,
         mzoneActStates := rz.1.2 }

/-- Total number of words a restore expects on the stream. -/
def requiredWords (icS iaS mcS maS nZones : Nat) : Nat :=
  icS + iaS + nZones * (mcS + maS)

/-- Modelled from the spec: the `k`-th draw (`IRandom(0, INT_MAX)`) of a
`CRandomSFMT` stream seeded with `seed` — a single seeded generator
stream, drawn sequentially. -/
def IRandomAt (seed k : Nat) : Nat := Nat.pair seed k

/-- Modelled from the spec: seeded pseudo-random generation of one
sub-state payload of a fixed word count. -/
def gen_payload (seed size : Nat) : List Nat :=
  (List.range size).map (fun j => seed + j)

/-- Modelled from the spec: the default-constructed (unseeded)
`InNetActivityState()` payload. -/
def default_act_payload (size : Nat) : List Nat := List.replicate size 0

/-- The generative constructor `CBMState(nZones)`: seeds its top-level
generator with `time(0)` (the `timeNow` argument here — the wall clock,
not a caller parameter in the source), draws the input-network
connectivity seed first, default-constructs input-network activity, then
for each zone in index order draws a connectivity seed then an activity
seed. -/
def CBMState.generate (icS iaS mcS maS : Nat) (timeNow : Nat) (nZones : Nat) : CBMState :=
  let innetCRSeed := IRandomAt timeNow 0
  { numZones := nZones,
    innetConState := gen_payload innetCRSeed icS,
    innetActState := default_act_payload iaS,
    mzoneConStates :=
      (List.range nZones).map (fun i => gen_payload (IRandomAt timeNow (1 + 2 * i)) mcS),
    mzoneActStates :=
      (List.range nZones).map (fun i => gen_payload (IRandomAt timeNow (2 + 2 * i)) maS) }

/-- Whether the cancellation flag `in_run` gets cleared during some
timestep of trial `t`: event processing (`gtk_main_iteration` /
`process_input`) runs once per executed timestep, and trials below
`homeoTuningTrials` execute no timesteps. -/
def trial_has_cancel (homeo trialTime : Nat) (cancel : Nat → Nat → Bool) (t : Nat) : Bool :=
  decide (homeo ≤ t) && (List.range trialTime).any (fun k => cancel t k)

/-- The trial loop of `Control::runTrials` as the trace of executed
(trial, timestep) pairs: `while (trial < numTotalTrials && in_run)`, with
the inner timestep loop guarded by `trial >= homeoTuningTrials` and never
re-checking `in_run`; fuel is the remaining trial budget. -/
def runTrials_go (homeo trialTime : Nat) (cancel : Nat → Nat → Bool) :
    Nat → Nat → List (Nat × Nat)
  | _, 0 => []
  | t, fuel + 1 =>
    let steps := if homeo ≤ t then (List.range trialTime).map (fun k => (t, k)) else []
    if trial_has_cancel homeo trialTime cancel t then steps
    else steps ++ runTrials_go homeo trialTime cancel (t + 1) fuel

/-- The full trace of `Control::runTrials` from `trial = 0`,
`in_run = true`. -/
def runTrials_trace (homeo numTotalTrials trialTime : Nat)
    (cancel : Nat → Nat → Bool) : List (Nat × Nat) :=
  runTrials_go homeo trialTime cancel 0 numTotalTrials

/-- The sequence of `simCore->calcActivity(MFGO, GOGR, GRGO, gogoW,
spillFrac)` argument tuples issued by `Control::runTrials`: the three
synaptic-weight parameters are unconditionally overwritten with the
literals `0.017`, `0.0007 * 0.9` and `0.00350 * 0.9` before the trial
loop begins. -/
def runTrials_calc_calls (GOGR GRGO MFGO gogoW spillFrac : ℚ)
    (homeo numTotalTrials trialTime : Nat) (cancel : Nat → Nat → Bool) :
    List (ℚ × ℚ × ℚ × ℚ × ℚ) :=
  let GOGR := (0.017 : ℚ)
  let GRGO := (0.0007 : ℚ) * 0.9
  let MFGO := (0.00350 : ℚ) * 0.9
  (runTrials_trace homeo numTotalTrials trialTime cancel).map
    (fun _ => (MFGO, GOGR, GRGO, gogoW, spillFrac))

/-- The fields of `Control` touched by its setup/persistence sequencing
checks. -/
structure ControlState where
  con_params_populated : Bool
  act_params_populated : Bool
  simState : Option CBMState
  simCoreState : Option CBMState
  numMZones : Nat
  conParams : List Nat
  actParams : List Nat
deriving DecidableEq

def err_init_no_con : String :=
  "[ERROR]: Trying to initialize state without first connectivity params."

def hint_init_no_con : String :=
  "[ERROR]: (Hint: Load a connectivity parameter file first then load the state."

def err_init_no_act : String :=
  "[ERROR]: Trying to initialize state without first initializing activity params."

def hint_init_no_act : String :=
  "[ERROR]: (Hint: Load an activity parameter file first then load the state."

def err_state_already : String := "[ERROR]: State already initialized."

def err_save_uninit : String :=
  "[ERROR]: Trying to write an uninitialized simulation to file."

def hint_save_uninit : String := "[ERROR]: (Hint: Try loading a build file first.)"

/-- Modelled from the spec: `populate_con_params` (parameter-file loading
is out of scope) — records the connectivity-parameter block and sets its
populated flag. -/
def populate_con_params (params : List Nat) (c : ControlState) : ControlState :=
  { c with con_params_populated := true, conParams := params }

/-- Modelled from the spec: `populate_act_params` — records the
activity-parameter block and sets its populated flag. -/
def populate_act_params (params : List Nat) (c : ControlState) : ControlState :=
  { c with act_params_populated := true, actParams := params }

/-- `Control::init_sim_state`: refuse (diagnostic message, early return,
no mutation) unless connectivity then activity parameters are populated
and no state exists yet; otherwise restore the state from the file. -/
def init_sim_state (icS iaS mcS maS : Nat) (stateFile : List Nat)
    (c : ControlState) : ControlState × List String :=
  if c.con_params_populated = false then
    (c, [err_init_no_con, hint_init_no_con])
  else if c.act_params_populated = false then
    (c, [err_init_no_act, hint_init_no_act])
  else
    match c.simState with
    | none =>
      let newState := CBMState.readState icS iaS mcS maS c.numMZones stateFile
      ({ c with simState := some newState }, [])
    | some _ => (c, [err_state_already])

/-- `Control::save_sim_to_file`: refuse (diagnostic message, early
return, nothing written) while `!(con_params_populated &&
act_params_populated && simState)`; otherwise write the parameter blocks
followed by the state (from the kernel's copy when one exists, else from
`simState`). -/
def save_sim_to_file (c : ControlState) :
    ControlState × Option (List Nat) × List String :=
  match c.simState with
  | some st =>
    if c.con_params_populated && c.act_params_populated then
      (c, some (c.conParams ++ c.actParams ++
                 CBMState.writeState (c.simCoreState.getD st)), [])
    else (c, none, [err_save_uninit, hint_save_uninit])
  | none => (c, none, [err_save_uninit, hint_save_uninit])

/-! ## Helper lemmas -/

theorem length_flags_vec (n : Nat) (spikes : List Nat) : (flags_vec n spikes).length = n := by
  simp [flags_vec]

theorem sum_zipWith_add (xs : List Nat) :
    ∀ ys : List Nat, xs.length = ys.length →
      (List.zipWith (· + ·) xs ys).sum = xs.sum + ys.sum := by
  induction xs with
  | nil => intro ys h; cases ys with
    | nil => simp
    | cons b bs => simp at h
  | cons a xtl ih =>
    intro ys h
    cases ys with
    | nil => simp at h
    | cons b bs =>
      simp only [List.zipWith_cons_cons, List.sum_cons]
      have h' : xtl.length = bs.length := by simpa using h
      rw [ih bs h']
      omega

theorem spike_wf_init (sizes : CellType → Nat) :
    spike_wf (initialize_spike_sums sizes) := by
  intro ct
  simp [initialize_spike_sums]

theorem spike_wf_reset (s : CellType → SpikeSum) : spike_wf (reset_spike_sums s) := by
  intro ct
  simp [reset_spike_sums]

theorem spike_wf_add_cs (s : SpikeSum) (spikes : List Nat)
    (h1 : s.cs_spike_counter.length = s.num_cells)
    (h2 : s.cs_spike_sum = s.cs_spike_counter.sum) :
    (s.add_cs spikes).cs_spike_counter.length = s.num_cells ∧
    (s.add_cs spikes).cs_spike_sum = (s.add_cs spikes).cs_spike_counter.sum := by
  constructor
  · simp [SpikeSum.add_cs, List.length_zipWith, h1, length_flags_vec]
  · simp only [SpikeSum.add_cs]
    rw [sum_zipWith_add s.cs_spike_counter (flags_vec s.num_cells spikes)
      (by rw [h1, length_flags_vec]), h2]

theorem spike_wf_add_non_cs (s : SpikeSum) (spikes : List Nat)
    (h1 : s.non_cs_spike_counter.length = s.num_cells)
    (h2 : s.non_cs_spike_sum = s.non_cs_spike_counter.sum) :
    (s.add_non_cs spikes).non_cs_spike_counter.length = s.num_cells ∧
    (s.add_non_cs spikes).non_cs_spike_sum = (s.add_non_cs spikes).non_cs_spike_counter.sum := by
  constructor
  · simp [SpikeSum.add_non_cs, List.length_zipWith, h1, length_flags_vec]
  · simp only [SpikeSum.add_non_cs]
    rw [sum_zipWith_add s.non_cs_spike_counter (flags_vec s.num_cells spikes)
      (by rw [h1, length_flags_vec]), h2]

theorem spike_wf_update (csStart csLength tts : Nat) (cellSpikes : CellType → List Nat)
    (s : CellType → SpikeSum) (h : spike_wf s) :
    spike_wf (update_spike_sums csStart csLength tts cellSpikes s) := by
  intro ct
  obtain ⟨hl1, hl2, hs1, hs2⟩ := h ct
  by_cases hcs : csStart ≤ tts ∧ tts < csStart + csLength
  · have hadd := spike_wf_add_cs (s ct) (cellSpikes ct) hl1 hs1
    simp only [update_spike_sums, if_pos hcs]
    exact ⟨hadd.1, by simp [SpikeSum.add_cs, hl2], hadd.2, by simp [SpikeSum.add_cs, hs2]⟩
  · by_cases hpre : tts < csStart
    · have hadd := spike_wf_add_non_cs (s ct) (cellSpikes ct) hl2 hs2
      simp only [update_spike_sums, if_neg hcs, if_pos hpre]
      exact ⟨by simp [SpikeSum.add_non_cs, hl1], hadd.1, by simp [SpikeSum.add_non_cs, hs1],
        hadd.2⟩
    · simp only [update_spike_sums, if_neg hcs, if_neg hpre]
      exact ⟨hl1, hl2, hs1, hs2⟩

theorem spike_wf_run (csStart csLength : Nat) (ops : List SpikeOp) :
    ∀ s : CellType → SpikeSum, spike_wf s →
      spike_wf (run_spike_ops csStart csLength s ops) := by
  induction ops with
  | nil => intro s h; exact h
  | cons op rest ih =>
    intro s h
    have hstep : spike_wf (op.apply csStart csLength s) := by
      cases op with
      | update tts cellSpikes => exact spike_wf_update csStart csLength tts cellSpikes s h
      | reset => exact spike_wf_reset s
    exact ih (op.apply csStart csLength s) hstep

/-! ## Claim C3: phase partition of spike recording -/

/-- Claim C3: a spike-sum update at `tts < csStart` adds each cell's
spike flag only to the non-CS sum and per-cell counter; at
`tts ∈ [csStart, csStart + csLength)` only to the CS sum and per-cell
counter; and at `tts ≥ csStart + csLength` it modifies nothing. -/
theorem update_spike_sums_phase_partition (csStart csLength tts : Nat)
    (cellSpikes : CellType → List Nat) (s : CellType → SpikeSum) (ct : CellType) :
    (tts < csStart →
      update_spike_sums csStart csLength tts cellSpikes s ct =
        { s ct with
          non_cs_spike_sum := (s ct).non_cs_spike_sum + (flags_vec (s ct).num_cells (cellSpikes ct)).sum,
          non_cs_spike_counter := List.zipWith (· + ·) (s ct).non_cs_spike_counter (flags_vec (s ct).num_cells (cellSpikes ct)) }) ∧
    (csStart ≤ tts → tts < csStart + csLength →
      update_spike_sums csStart csLength tts cellSpikes s ct =
        { s ct with
          cs_spike_sum := (s ct).cs_spike_sum + (flags_vec (s ct).num_cells (cellSpikes ct)).sum,
          cs_spike_counter := List.zipWith (· + ·) (s ct).cs_spike_counter (flags_vec (s ct).num_cells (cellSpikes ct)) }) ∧
    (csStart + csLength ≤ tts →
      update_spike_sums csStart csLength tts cellSpikes s ct = s ct) := by
  refine ⟨fun h => ?_, fun h1 h2 => ?_, fun h => ?_⟩
  · have hn : ¬(csStart ≤ tts ∧ tts < csStart + csLength) := by omega
    simp only [update_spike_sums, if_neg hn, if_pos h, SpikeSum.add_non_cs]
  · simp only [update_spike_sums, if_pos (And.intro h1 h2), SpikeSum.add_cs]
  · have hn : ¬(csStart ≤ tts ∧ tts < csStart + csLength) := by omega
    have hn2 : ¬tts < csStart := by omega
    simp only [update_spike_sums, if_neg hn, if_neg hn2]

/-- Witness for C3: all three phases evaluated on a concrete tracker. -/
theorem update_spike_sums_phase_partition_witness :
    (1 < 2 ∧
      update_spike_sums 2 3 1 (fun _ => [1, 1]) (initialize_spike_sums (fun _ => 2)) CellType.MF =
        SpikeSum.mk 2 0 2 [0, 0] [1, 1]) ∧
    (2 ≤ 3 ∧ 3 < 2 + 3 ∧
      update_spike_sums 2 3 3 (fun _ => [1, 1]) (initialize_spike_sums (fun _ => 2)) CellType.MF =
        SpikeSum.mk 2 2 0 [1, 1] [0, 0]) ∧
    (2 + 3 ≤ 7 ∧
      update_spike_sums 2 3 7 (fun _ => [1, 1]) (initialize_spike_sums (fun _ => 2)) CellType.MF =
        initialize_spike_sums (fun _ => 2) CellType.MF) := by
  refine ⟨⟨by omega, ?_⟩, ⟨by omega, by omega, ?_⟩, ⟨by omega, ?_⟩⟩
  · rw [(update_spike_sums_phase_partition 2 3 1 (fun _ => [1, 1])
      (initialize_spike_sums (fun _ => 2)) CellType.MF).1 (by omega)]
    decide
  · rw [(update_spike_sums_phase_partition 2 3 3 (fun _ => [1, 1])
      (initialize_spike_sums (fun _ => 2)) CellType.MF).2.1 (by omega) (by omega)]
    decide
  · exact (update_spike_sums_phase_partition 2 3 7 (fun _ => [1, 1])
      (initialize_spike_sums (fun _ => 2)) CellType.MF).2.2 (by omega)

/-! ## Claim C4: spike-sum conservation invariant -/

/-- Claim C4: after initialization and after every sequence of spike-sum
updates and resets (and before any sort-destructive firing-rate
computation), for every cell type the CS sum equals the sum of the CS
per-cell counters, and likewise for the non-CS tallies. -/
theorem spike_sum_conservation (sizes : CellType → Nat) (csStart csLength : Nat)
    (ops : List SpikeOp) (ct : CellType) :
    (run_spike_ops csStart csLength (initialize_spike_sums sizes) ops ct).cs_spike_sum =
      (run_spike_ops csStart csLength (initialize_spike_sums sizes) ops ct).cs_spike_counter.sum ∧
    (run_spike_ops csStart csLength (initialize_spike_sums sizes) ops ct).non_cs_spike_sum =
      (run_spike_ops csStart csLength (initialize_spike_sums sizes) ops ct).non_cs_spike_counter.sum := by
  have h := spike_wf_run csStart csLength ops (initialize_spike_sums sizes)
    (spike_wf_init sizes) ct
  exact ⟨h.2.2.1, h.2.2.2⟩

/-- Witness for C4 on a concrete run: two updates and a reset followed by
another update. -/
theorem spike_sum_conservation_witness :
    (run_spike_ops 2 3 (initialize_spike_sums (fun _ => 2))
        [SpikeOp.update 0 (fun _ => [1, 0]), SpikeOp.update 2 (fun _ => [1, 1]),
         SpikeOp.reset, SpikeOp.update 3 (fun _ => [0, 1])] CellType.GO).cs_spike_sum =
      (run_spike_ops 2 3 (initialize_spike_sums (fun _ => 2))
        [SpikeOp.update 0 (fun _ => [1, 0]), SpikeOp.update 2 (fun _ => [1, 1]),
         SpikeOp.reset, SpikeOp.update 3 (fun _ => [0, 1])] CellType.GO).cs_spike_counter.sum ∧
    (run_spike_ops 2 3 (initialize_spike_sums (fun _ => 2))
        [SpikeOp.update 0 (fun _ => [1, 0]), SpikeOp.update 2 (fun _ => [1, 1]),
         SpikeOp.reset, SpikeOp.update 3 (fun _ => [0, 1])] CellType.GO).non_cs_spike_sum =
      (run_spike_ops 2 3 (initialize_spike_sums (fun _ => 2))
        [SpikeOp.update 0 (fun _ => [1, 0]), SpikeOp.update 2 (fun _ => [1, 1]),
         SpikeOp.reset, SpikeOp.update 3 (fun _ => [0, 1])] CellType.GO).non_cs_spike_counter.sum :=
  spike_sum_conservation (fun _ => 2) 2 3
    [SpikeOp.update 0 (fun _ => [1, 0]), SpikeOp.update 2 (fun _ => [1, 1]),
     SpikeOp.reset, SpikeOp.update 3 (fun _ => [0, 1])] CellType.GO

/-! ## Claim C10: statistics read only zone 0 -/

theorem gather_cell_spikes_zone0 (mfAP : List Nat) (innet : InNetExports)
    (mz1 mz2 : Nat → MZoneExports) (h : mz1 0 = mz2 0) :
    gather_cell_spikes mfAP innet mz1 = gather_cell_spikes mfAP innet mz2 := by
  funext ct
  cases ct <;> simp [gather_cell_spikes, h]

/-- Claim C10: every spike-sum update reads the basket, Purkinje,
inferior-olive and deep-nucleus spike vectors exclusively from zone 0:
two kernels agreeing on zone 0 yield identical statistics, whatever the
zones with index ≥ 1 report. -/
theorem update_spike_sums_zone_zero_only (csStart csLength tts : Nat) (mfAP : List Nat)
    (innet : InNetExports) (mz1 mz2 : Nat → MZoneExports) (s : CellType → SpikeSum)
    (h : mz1 0 = mz2 0) :
    update_spike_sums_from_core csStart csLength tts mfAP innet mz1 s =
      update_spike_sums_from_core csStart csLength tts mfAP innet mz2 s := by
  unfold update_spike_sums_from_core
  rw [gather_cell_spikes_zone0 mfAP innet mz1 mz2 h]

/-- Witness for C10: the two kernels agree on zone 0 but disagree on
zone 1; the statistics agree. -/
theorem update_spike_sums_zone_zero_only_witness :
    update_spike_sums_from_core 2 3 2 [1] (InNetExports.mk [1] [1] [1])
        (fun _ => MZoneExports.mk [0] [0] [0] [0]) (initialize_spike_sums (fun _ => 1)) =
      update_spike_sums_from_core 2 3 2 [1] (InNetExports.mk [1] [1] [1])
        (fun i => if i = 0 then MZoneExports.mk [0] [0] [0] [0] else MZoneExports.mk [1] [1] [1] [1])
        (initialize_spike_sums (fun _ => 1)) :=
  update_spike_sums_zone_zero_only 2 3 2 [1] (InNetExports.mk [1] [1] [1])
    (fun _ => MZoneExports.mk [0] [0] [0] [0])
    (fun i => if i = 0 then MZoneExports.mk [0] [0] [0] [0] else MZoneExports.mk [1] [1] [1] [1])
    (initialize_spike_sums (fun _ => 1)) (by decide)

/-! ## Claim C5: CS firing-rate formulas with hard-coded window -/

/-- Claim C5: for a cell type with even `num_cells`, the firing-rate
computation sorts the CS counter array ascending (writing the sorted
array back), sets the CS median to the two middle sorted entries over
`2 * csWindowSeconds` and the CS mean to `cs_spike_sum /
(csWindowSeconds * num_cells)`, with `csWindowSeconds` hard-coded to `2`
— the result is independent of the configured CS window length. -/
theorem calculate_firing_rates_cs_hardcoded (csStart csLength csLength2 : Nat)
    (s : CellType → SpikeSum) (ct : CellType) (heven : Even (s ct).num_cells) :
    List.Sorted (· ≤ ·) (List.insertionSort (· ≤ ·) (s ct).cs_spike_counter) ∧
    (List.insertionSort (· ≤ ·) (s ct).cs_spike_counter).Perm (s ct).cs_spike_counter ∧
    ((calculate_firing_rates csStart csLength s).2 ct).cs_spike_counter =
      List.insertionSort (· ≤ ·) (s ct).cs_spike_counter ∧
    ((calculate_firing_rates csStart csLength s).1 ct).cs_median_fr =
      ((((List.insertionSort (· ≤ ·) (s ct).cs_spike_counter).getD ((s ct).num_cells / 2 - 1) 0 : Nat) : ℚ) +
        (((List.insertionSort (· ≤ ·) (s ct).cs_spike_counter).getD ((s ct).num_cells / 2) 0 : Nat) : ℚ)) / (2 * 2) ∧
    ((calculate_firing_rates csStart csLength s).1 ct).cs_mean_fr =
      (((s ct).cs_spike_sum : Nat) : ℚ) / (2 * (((s ct).num_cells : Nat) : ℚ)) ∧
    calculate_firing_rates csStart csLength s = calculate_firing_rates csStart csLength2 s := by
  refine ⟨List.sorted_insertionSort (· ≤ ·) _, List.perm_insertionSort (· ≤ ·) _, rfl, ?_, rfl, rfl⟩
  show (_ : ℚ) / 4 = _ / (2 * 2)
  norm_num

/-- Witness for C5: an even two-cell population with CS counters
`[3, 1]`; sorted medians give `(1 + 3) / 4 = 1`, the mean gives
`6 / 4 = 3 / 2`, and the configured CS length (5 vs 7) is irrelevant. -/
theorem calculate_firing_rates_cs_hardcoded_witness :
    Even ((fun _ => SpikeSum.mk 2 6 4 [3, 1] [2, 2]) CellType.PC).num_cells ∧
    ((calculate_firing_rates 10 5 (fun _ => SpikeSum.mk 2 6 4 [3, 1] [2, 2])).1 CellType.PC).cs_median_fr = 1 ∧
    ((calculate_firing_rates 10 5 (fun _ => SpikeSum.mk 2 6 4 [3, 1] [2, 2])).1 CellType.PC).cs_mean_fr = 3 / 2 ∧
    calculate_firing_rates 10 5 (fun _ => SpikeSum.mk 2 6 4 [3, 1] [2, 2]) =
      calculate_firing_rates 10 7 (fun _ => SpikeSum.mk 2 6 4 [3, 1] [2, 2]) := by
  have h := calculate_firing_rates_cs_hardcoded 10 5 7
    (fun _ => SpikeSum.mk 2 6 4 [3, 1] [2, 2]) CellType.PC (by decide)
  refine ⟨by decide, ?_, ?_, h.2.2.2.2.2⟩
  · rw [h.2.2.2.1]
    norm_num [List.insertionSort, List.orderedInsert]
  · rw [h.2.2.2.2.1]
    norm_num

/-! ## Claim C6: cancellation granularity of the trial loop -/

theorem mem_trial_steps (t0 trialTime t k : Nat) :
    ((t, k) ∈ (List.range trialTime).map (fun j => (t0, j))) ↔ (t = t0 ∧ k < trialTime) := by
  simp only [List.mem_map, List.mem_range, Prod.mk.injEq]
  constructor
  · rintro ⟨j, hj, rfl, rfl⟩; exact ⟨rfl, hj⟩
  · rintro ⟨rfl, hk⟩; exact ⟨k, hk, rfl, rfl⟩

theorem trial_has_cancel_homeo (homeo trialTime : Nat) (cancel : Nat → Nat → Bool) (t : Nat)
    (h : trial_has_cancel homeo trialTime cancel t = true) : homeo ≤ t := by
  simp only [trial_has_cancel, Bool.and_eq_true, decide_eq_true_eq] at h
  exact h.1

theorem runTrials_go_mem (homeo trialTime : Nat) (cancel : Nat → Nat → Bool) :
    ∀ (fuel t0 t k : Nat),
      ((t, k) ∈ runTrials_go homeo trialTime cancel t0 fuel) ↔
        (t0 ≤ t ∧ t < t0 + fuel ∧ homeo ≤ t ∧ k < trialTime ∧
          ∀ u, t0 ≤ u → u < t → trial_has_cancel homeo trialTime cancel u = false) := by
  intro fuel
  induction fuel with
  | zero =>
    intro t0 t k
    simp only [runTrials_go, List.not_mem_nil, false_iff]
    intro h
    omega
  | succ fuel ih =>
    intro t0 t k
    simp only [runTrials_go]
    by_cases hc : trial_has_cancel homeo trialTime cancel t0
    · rw [if_pos hc]
      have hh : homeo ≤ t0 := trial_has_cancel_homeo homeo trialTime cancel t0 hc
      rw [if_pos hh, mem_trial_steps]
      constructor
      · rintro ⟨rfl, hk⟩
        exact ⟨Nat.le_refl t, by omega, hh, hk, fun u h1 h2 => by omega⟩
      · rintro ⟨h1, h2, h3, h4, h5⟩
        rcases Nat.eq_or_lt_of_le h1 with rfl | hlt
        · exact ⟨rfl, h4⟩
        · have := h5 t0 (Nat.le_refl t0) hlt
          rw [hc] at this
          exact absurd this (by simp)
    · rw [if_neg hc]
      rw [List.mem_append, ih (t0 + 1) t k]
      by_cases hh : homeo ≤ t0
      · rw [if_pos hh, mem_trial_steps]
        constructor
        · rintro (⟨rfl, hk⟩ | ⟨h1, h2, h3, h4, h5⟩)
          · exact ⟨Nat.le_refl t, by omega, hh, hk, fun u h1 h2 => by omega⟩
          · refine ⟨by omega, by omega, h3, h4, fun u hu1 hu2 => ?_⟩
            rcases Nat.eq_or_lt_of_le hu1 with rfl | hlt
            · exact Bool.of_not_eq_true hc
            · exact h5 u hlt hu2
        · rintro ⟨h1, h2, h3, h4, h5⟩
          rcases Nat.eq_or_lt_of_le h1 with rfl | hlt
          · exact Or.inl ⟨rfl, h4⟩
          · exact Or.inr ⟨by omega, by omega, h3, h4, fun u hu1 hu2 => h5 u (by omega) hu2⟩
      · rw [if_neg hh]
        simp only [List.not_mem_nil, false_or]
        constructor
        · rintro ⟨h1, h2, h3, h4, h5⟩
          refine ⟨by omega, by omega, h3, h4, fun u hu1 hu2 => ?_⟩
          rcases Nat.eq_or_lt_of_le hu1 with rfl | hlt
          · exact Bool.of_not_eq_true hc
          · exact h5 u hlt hu2
        · rintro ⟨h1, h2, h3, h4, h5⟩
          have hne : t ≠ t0 := by rintro rfl; exact hh h3
          exact ⟨by omega, by omega, h3, h4, fun u hu1 hu2 => h5 u (by omega) hu2⟩

/-- Claim C6: a (trial, timestep) pair executes exactly when the trial
index is below the configured total, the trial runs timesteps
(`trial ≥ homeoTuningTrials`), and no earlier trial observed a
cancellation — the flag is consulted only at trial boundaries; in
particular, clearing the flag during timestep `j` of trial `t` never
stops the loop before trial `t`'s final timestep completes. -/
theorem runTrials_cancellation_granularity (homeo numTotalTrials trialTime : Nat)
    (cancel : Nat → Nat → Bool) (t k j : Nat) :
    ((t, k) ∈ runTrials_trace homeo numTotalTrials trialTime cancel ↔
      (homeo ≤ t ∧ t < numTotalTrials ∧ k < trialTime ∧
        ∀ u, u < t → trial_has_cancel homeo trialTime cancel u = false)) ∧
    (cancel t j = true →
      (t, k) ∈ runTrials_trace homeo numTotalTrials trialTime cancel →
      ∀ i, i < trialTime → (t, i) ∈ runTrials_trace homeo numTotalTrials trialTime cancel) := by
  have hchar := runTrials_go_mem homeo trialTime cancel numTotalTrials 0
  constructor
  · rw [runTrials_trace, hchar t k]
    constructor
    · rintro ⟨h1, h2, h3, h4, h5⟩
      exact ⟨h3, by omega, h4, fun u hu => h5 u (by omega) hu⟩
    · rintro ⟨h1, h2, h3, h4⟩
      exact ⟨by omega, by omega, h1, h3, fun u _ hu => h4 u hu⟩
  · intro hcj hmem i hi
    rw [runTrials_trace, hchar t k] at hmem
    rw [runTrials_trace, hchar t i]
    obtain ⟨h1, h2, h3, h4, h5⟩ := hmem
    exact ⟨h1, h2, h3, hi, h5⟩

/-- Witness for C6: the flag is cleared during timestep 1 of trial 0;
trial 0 still executes its final timestep 2, and trial 1 never starts. -/
theorem runTrials_cancellation_granularity_witness :
    ((fun u v => decide (u = 0 ∧ v = 1)) 0 1 = true) ∧
    (0, 2) ∈ runTrials_trace 0 2 3 (fun u v => decide (u = 0 ∧ v = 1)) ∧
    (1, 0) ∉ runTrials_trace 0 2 3 (fun u v => decide (u = 0 ∧ v = 1)) := by
  refine ⟨by decide, ?_, ?_⟩
  · exact ((runTrials_cancellation_granularity 0 2 3
      (fun u v => decide (u = 0 ∧ v = 1)) 0 2 1).1).mpr
      ⟨Nat.le_refl 0, by omega, by omega, fun u hu => absurd hu (Nat.not_lt_zero u)⟩
  · intro hmem
    have h := ((runTrials_cancellation_granularity 0 2 3
      (fun u v => decide (u = 0 ∧ v = 1)) 1 0 1).1).mp hmem
    have h0 := h.2.2.2 0 (by omega)
    exact absurd h0 (by decide)

/-! ## Claim C9: the synaptic-weight arguments of runTrials are dead -/

/-- Claim C9: `runTrials` unconditionally overwrites its `GOGR`, `GRGO`
and `MFGO` arguments with `0.017`, `0.0007 * 0.9` and `0.00350 * 0.9`
before the trial loop, so any two argument triples produce the same
sequence of kernel invocations, and every invocation carries the fixed
constants. -/
theorem runTrials_weight_args_dead (GOGR1 GRGO1 MFGO1 GOGR2 GRGO2 MFGO2 gogoW spillFrac : ℚ)
    (homeo numTotalTrials trialTime : Nat) (cancel : Nat → Nat → Bool) :
    runTrials_calc_calls GOGR1 GRGO1 MFGO1 gogoW spillFrac homeo numTotalTrials trialTime cancel =
      runTrials_calc_calls GOGR2 GRGO2 MFGO2 gogoW spillFrac homeo numTotalTrials trialTime cancel ∧
    ∀ call ∈ runTrials_calc_calls GOGR1 GRGO1 MFGO1 gogoW spillFrac homeo numTotalTrials trialTime cancel,
      call = ((0.00350 : ℚ) * 0.9, (0.017 : ℚ), (0.0007 : ℚ) * 0.9, gogoW, spillFrac) := by
  constructor
  · rfl
  · intro call hcall
    simp only [runTrials_calc_calls, List.mem_map] at hcall
    obtain ⟨x, _, h⟩ := hcall
    exact h.symm

/-- Witness for C9: two different weight triples, identical call
sequences. -/
theorem runTrials_weight_args_dead_witness :
    runTrials_calc_calls 1 2 3 4 5 0 1 2 (fun _ _ => false) =
      runTrials_calc_calls 6 7 8 4 5 0 1 2 (fun _ _ => false) :=
  (runTrials_weight_args_dead 1 2 3 6 7 8 4 5 0 1 2 (fun _ _ => false)).1

/-! ## Claim C1: serialization round-trip -/

theorem readField_exact (n : Nat) (l rest : List Nat) (h : l.length = n) :
    readField n (l ++ rest) = (l, rest) := by
  subst h
  have h1 : l.length - (l ++ rest).length = 0 := by simp
  rw [readField, h1]
  simp [List.take_left, List.drop_left]

theorem readZones_write (mcS maS : Nat) :
    ∀ (mc ma : List (List Nat)) (rest : List Nat),
      mc.length = ma.length →
      (∀ x ∈ mc, x.length = mcS) → (∀ x ∈ ma, x.length = maS) →
      readZones mcS maS mc.length (writeZones mc ma ++ rest) = ((mc, ma), rest) := by
  intro mc
  induction mc with
  | nil =>
    intro ma rest hlen h1 h2
    cases ma with
    | nil => simp [readZones, writeZones]
    | cons a al => simp at hlen
  | cons c cs ih =>
    intro ma rest hlen h1 h2
    cases ma with
    | nil => simp at hlen
    | cons a al =>
      have hc : c.length = mcS := h1 c (by simp)
      have ha : a.length = maS := h2 a (by simp)
      have hrec := ih al rest (by simpa using hlen)
        (fun x hx => h1 x (by simp [hx])) (fun x hx => h2 x (by simp [hx]))
      have hw : writeZones (c :: cs) (a :: al) ++ rest =
          c ++ (a ++ (writeZones cs al ++ rest)) := by
        simp [writeZones, List.append_assoc]
      simp only [List.length_cons, readZones, hw,
        readField_exact mcS c (a ++ (writeZones cs al ++ rest)) hc,
        readField_exact maS a (writeZones cs al ++ rest) ha, hrec]

theorem readState_writeState (icS iaS mcS maS : Nat) (s : CBMState)
    (h1 : s.innetConState.length = icS) (h2 : s.innetActState.length = iaS)
    (h3 : s.mzoneConStates.length = s.numZones)
    (h4 : s.mzoneActStates.length = s.numZones)
    (h5 : ∀ x ∈ s.mzoneConStates, x.length = mcS)
    (h6 : ∀ x ∈ s.mzoneActStates, x.length = maS) :
    CBMState.readState icS iaS mcS maS s.numZones (CBMState.writeState s) = s := by
  obtain ⟨nz, ic, ia, mc, ma⟩ := s
  simp only at h1 h2 h3 h4 h5 h6
  have hzs : readZones mcS maS mc.length (writeZones mc ma ++ []) = ((mc, ma), []) :=
    readZones_write mcS maS mc ma [] (by omega) h5 h6
  rw [List.append_nil] at hzs
  have hw : CBMState.writeState (CBMState.mk nz ic ia mc ma) =
      ic ++ (ia ++ writeZones mc ma) := by
    simp [CBMState.writeState, List.append_assoc]
  simp only [CBMState.readState, hw, readField_exact icS ic (ia ++ writeZones mc ma) h1,
    readField_exact iaS ia (writeZones mc ma) h2]
  rw [← h3] at *
  simp only [hzs]

theorem generate_lengths (icS iaS mcS maS timeNow nZones : Nat) :
    (CBMState.generate icS iaS mcS maS timeNow nZones).innetConState.length = icS ∧
    (CBMState.generate icS iaS mcS maS timeNow nZones).innetActState.length = iaS ∧
    (CBMState.generate icS iaS mcS maS timeNow nZones).mzoneConStates.length = nZones ∧
    (CBMState.generate icS iaS mcS maS timeNow nZones).mzoneActStates.length = nZones ∧
    (∀ x ∈ (CBMState.generate icS iaS mcS maS timeNow nZones).mzoneConStates, x.length = mcS) ∧
    (∀ x ∈ (CBMState.generate icS iaS mcS maS timeNow nZones).mzoneActStates, x.length = maS) := by
  refine ⟨by simp [CBMState.generate, gen_payload],
    by simp [CBMState.generate, default_act_payload],
    by simp [CBMState.generate], by simp [CBMState.generate], ?_, ?_⟩
  · intro x hx
    simp only [CBMState.generate, List.mem_map] at hx
    obtain ⟨i, _, rfl⟩ := hx
    simp [gen_payload]
  · intro x hx
    simp only [CBMState.generate, List.mem_map] at hx
    obtain ⟨i, _, rfl⟩ := hx
    simp [gen_payload]

/-- Claim C1: for every zone count Z ≥ 1 and every generatively-created
state, serializing and then restoring (with the sub-state sizes known
out-of-band) recovers every field of the state; the wire order is
input-network connectivity, input-network activity, then per zone in
index order connectivity then activity. -/
theorem cbmstate_serialize_round_trip (icS iaS mcS maS timeNow nZones : Nat)
    (hz : 1 ≤ nZones) :
    CBMState.readState icS iaS mcS maS nZones
        (CBMState.writeState (CBMState.generate icS iaS mcS maS timeNow nZones)) =
      CBMState.generate icS iaS mcS maS timeNow nZones := by
  have hl := generate_lengths icS iaS mcS maS timeNow nZones
  exact readState_writeState icS iaS mcS maS (CBMState.generate icS iaS mcS maS timeNow nZones)
    hl.1 hl.2.1 hl.2.2.1 hl.2.2.2.1 hl.2.2.2.2.1 hl.2.2.2.2.2

/-- Witness for C1: a concrete one-zone generatively-created state
round-trips. -/
theorem cbmstate_serialize_round_trip_witness :
    (1 ≤ 1) ∧
    CBMState.readState 2 1 1 1 1
        (CBMState.writeState (CBMState.generate 2 1 1 1 5 1)) =
      CBMState.generate 2 1 1 1 5 1 :=
  ⟨by omega, cbmstate_serialize_round_trip 2 1 1 1 5 1 (by omega)⟩

/-! ## Claim C2: behaviour of restore on exhausted streams -/

theorem readFieldChecked_of_le (n : Nat) (stream : List Nat) (h : n ≤ stream.length) :
    readFieldChecked n stream = Except.ok (readField n stream) := by
  have h0 : n - stream.length = 0 := by omega
  rw [readFieldChecked, if_pos h, readField, h0]
  simp

theorem readZonesChecked_of_le (mcS maS : Nat) :
    ∀ (k : Nat) (stream : List Nat), k * (mcS + maS) ≤ stream.length →
      readZonesChecked mcS maS k stream = Except.ok (readZones mcS maS k stream) := by
  intro k
  induction k with
  | zero => intro stream h; rfl
  | succ k ih =>
    intro stream h
    rw [Nat.succ_mul] at h
    have hmc : mcS ≤ stream.length := by omega
    have hma : maS ≤ (stream.drop mcS).length := by
      rw [List.length_drop]; omega
    have hrest : k * (mcS + maS) ≤ ((stream.drop mcS).drop maS).length := by
      rw [List.length_drop, List.length_drop]; omega
    have hf1 : (readField mcS stream).2 = stream.drop mcS := rfl
    have hf2 : (readField maS (stream.drop mcS)).2 = (stream.drop mcS).drop maS := rfl
    simp only [readZonesChecked, readZones, readFieldChecked_of_le mcS stream hmc,
      hf1, readFieldChecked_of_le maS (stream.drop mcS) hma, hf2,
      ih ((stream.drop mcS).drop maS) hrest, Bind.bind, Except.bind]
    rfl

/-- Claim C2, amended: the restorative construction in the code never
fails — it reads unconditionally, and an exhausted stream silently
yields garbage (zero) words for the missing fields.  The `CorruptState`
failure the spec demands exists only in the spec-modelled checked
restore, which succeeds and agrees with the code's restore whenever the
stream holds at least the expected number of words. -/
theorem readState_checked_agrees (icS iaS mcS maS nZones : Nat) (stream : List Nat)
    (h : requiredWords icS iaS mcS maS nZones ≤ stream.length) :
    CBMState.readStateChecked icS iaS mcS maS nZones stream =
      Except.ok (CBMState.readState icS iaS mcS maS nZones stream) := by
  rw [requiredWords] at h
  have hic : icS ≤ stream.length := by omega
  have hia : iaS ≤ (stream.drop icS).length := by rw [List.length_drop]; omega
  have hz : nZones * (mcS + maS) ≤ ((stream.drop icS).drop iaS).length := by
    rw [List.length_drop, List.length_drop]; omega
  have hf1 : (readField icS stream).2 = stream.drop icS := rfl
  have hf2 : (readField iaS (stream.drop icS)).2 = (stream.drop icS).drop iaS := rfl
  simp only [CBMState.readStateChecked, CBMState.readState,
    readFieldChecked_of_le icS stream hic, hf1,
    readFieldChecked_of_le iaS (stream.drop icS) hia, hf2,
    readZonesChecked_of_le mcS maS nZones ((stream.drop icS).drop iaS) hz,
    Bind.bind, Except.bind]
  rfl

/-- Witness for the amended C2: on a stream holding exactly the expected
four words the checked restore succeeds and agrees with the code's. -/
theorem readState_checked_agrees_witness :
    requiredWords 1 1 1 1 1 ≤ [5, 6, 7, 8].length ∧
    CBMState.readStateChecked 1 1 1 1 1 [5, 6, 7, 8] =
      Except.ok (CBMState.readState 1 1 1 1 1 [5, 6, 7, 8]) :=
  ⟨by decide, readState_checked_agrees 1 1 1 1 1 [5, 6, 7, 8] (by decide)⟩

/-- Counterexample for C2 as stated: on the exhausted stream `[]` the
code's restorative construction does not fail — it returns a
fully-populated state of garbage (zero) words — whereas the checked
restore of the spec reports `corruptState` there. -/
theorem cbmstate_restore_reads_garbage_on_short_stream :
    CBMState.readState 1 1 1 1 1 [] = CBMState.mk 1 [0] [0] [[0]] [[0]] ∧
    CBMState.readStateChecked 1 1 1 1 1 [] =
      Except.error StateReadError.corruptState := by
  constructor <;> rfl

/-! ## Claim C7: generative seeding and reproducibility -/

theorem gen_payload_getD_zero (seed n : Nat) (h : 0 < n) :
    (gen_payload seed n).getD 0 0 = seed := by
  cases n with
  | zero => omega
  | succ m => simp [gen_payload, List.range_succ_eq_map]

/-- Claim C7, amended: the generative constructor derives its top-level
seed from the wall clock (`time(0)`), which is not a caller parameter;
for a fixed zone count, two generative constructions yield identical
states exactly when the hidden clock reading was the same, so identical
caller-supplied inputs alone do not guarantee identical outputs. -/
theorem generate_determined_by_clock (icS iaS mcS maS t1 t2 nZones : Nat)
    (hic : 1 ≤ icS) :
    (CBMState.generate icS iaS mcS maS t1 nZones =
       CBMState.generate icS iaS mcS maS t2 nZones) ↔ t1 = t2 := by
  constructor
  · intro h
    have hinn : (CBMState.generate icS iaS mcS maS t1 nZones).innetConState =
        (CBMState.generate icS iaS mcS maS t2 nZones).innetConState := by rw [h]
    simp only [CBMState.generate] at hinn
    have h0 : (gen_payload (IRandomAt t1 0) icS).getD 0 0 =
        (gen_payload (IRandomAt t2 0) icS).getD 0 0 := by rw [hinn]
    rw [gen_payload_getD_zero (IRandomAt t1 0) icS (by omega),
      gen_payload_getD_zero (IRandomAt t2 0) icS (by omega)] at h0
    exact (Nat.pair_eq_pair.mp h0).1
  · intro h
    rw [h]

/-- Witness for the amended C7: at clock readings 0 and 1 the generated
states are equal iff 0 = 1 (and trivially equal at equal readings). -/
theorem generate_determined_by_clock_witness :
    (1 ≤ 1) ∧
    ((CBMState.generate 1 1 1 1 0 1 = CBMState.generate 1 1 1 1 1 1) ↔ 0 = 1) :=
  ⟨by omega, generate_determined_by_clock 1 1 1 1 0 1 1 (by omega)⟩

/-- Counterexample for C7 as stated: two generative constructions with
the same zone count — the only caller-supplied input, there being no seed
parameter — produce different states, because the hidden wall-clock seed
differed between the calls. -/
theorem generate_not_reproducible :
    CBMState.generate 1 1 1 1 0 1 ≠ CBMState.generate 1 1 1 1 1 1 := by
  decide

/-! ## Claim C8: sequencing errors are reported and abort early -/

/-- Claim C8: initializing state before connectivity or activity
parameters are populated, or saving an uninitialized simulation, prints
a diagnostic and returns early with every controller field unchanged and
nothing written; redoing the setup in the correct order afterwards
succeeds. -/
theorem control_sequencing_errors (icS iaS mcS maS : Nat)
    (stateFile conP actP : List Nat) (c : ControlState) :
    (c.con_params_populated = false →
      init_sim_state icS iaS mcS maS stateFile c =
        (c, [err_init_no_con, hint_init_no_con])) ∧
    (c.con_params_populated = true → c.act_params_populated = false →
      init_sim_state icS iaS mcS maS stateFile c =
        (c, [err_init_no_act, hint_init_no_act])) ∧
    ((c.con_params_populated = false ∨ c.act_params_populated = false ∨
        c.simState = none) →
      save_sim_to_file c = (c, none, [err_save_uninit, hint_save_uninit])) ∧
    (c.simState = none →
      init_sim_state icS iaS mcS maS stateFile
          (populate_act_params actP (populate_con_params conP c)) =
        ({ populate_act_params actP (populate_con_params conP c) with
            simState := some (CBMState.readState icS iaS mcS maS c.numMZones stateFile) },
         [])) := by
  refine ⟨fun h => ?_, fun h1 h2 => ?_, fun h => ?_, fun h => ?_⟩
  · simp [init_sim_state, h]
  · simp [init_sim_state, h1, h2]
  · rcases hss : c.simState with _ | st
    · simp [save_sim_to_file, hss]
    · rcases h with h | h | h
      · simp [save_sim_to_file, hss, h]
      · simp [save_sim_to_file, hss, h]
      · rw [h] at hss
        cases hss
  · simp [init_sim_state, populate_con_params, populate_act_params, h]

/-- Witness for C8 on a blank controller: both failing operations leave
it untouched and report the source's diagnostics, and redoing setup in
order succeeds. -/
theorem control_sequencing_errors_witness :
    init_sim_state 1 1 1 1 [9, 9, 9, 9] (ControlState.mk false false none none 1 [] []) =
      (ControlState.mk false false none none 1 [] [],
       [err_init_no_con, hint_init_no_con]) ∧
    save_sim_to_file (ControlState.mk false false none none 1 [] []) =
      (ControlState.mk false false none none 1 [] [], none,
       [err_save_uninit, hint_save_uninit]) ∧
    init_sim_state 1 1 1 1 [9, 9, 9, 9]
        (populate_act_params [2] (populate_con_params [1]
          (ControlState.mk false false none none 1 [] []))) =
      ({ populate_act_params [2] (populate_con_params [1]
           (ControlState.mk false false none none 1 [] [])) with
          simState := some (CBMState.readState 1 1 1 1
            (ControlState.mk false false none none 1 [] []).numMZones [9, 9, 9, 9]) },
       []) := by
  have h := control_sequencing_errors 1 1 1 1 [9, 9, 9, 9] [1] [2]
    (ControlState.mk false false none none 1 [] [])
  exact ⟨h.1 rfl, h.2.2.1 (Or.inl rfl), h.2.2.2 rfl⟩
